import Mathlib

/-!
Verification of the sub-sequence sampling core of the seqan3 excerpt
(minimiser / syncmer / weighted-minimiser streaming operators).

Hash values are modelled as `Nat` (the C++ code uses `uint64_t` but performs
no arithmetic on the values in the operators modelled here: only `<`, `<=`
and `==` comparisons and copies).  The window buffer `std::deque` is modelled
as a `List Nat` with `pop_front = List.tail` and `push_back = l ++ [v]`.
Iterators over the underlying hash streams are modelled by the list of values
still to be consumed.
-/

namespace Seqan3

/-- Value returned by `std::min_element` on the modelled deque: the minimum
value of a nonempty list (the position of the minimal element is never used
by the code modelled here, only its value; 0 on the empty list, which the
code never queries). -/
def listMin : List Nat → Nat
  | [] => 0
  | [x] => x
  | x :: y :: t => min x (listMin (y :: t))

/-- Index of the rightmost minimal element of a list: the element returned by
`std::min_element` with comparator `std::less_equal` ("robust winnowing":
on ties the rightmost occurrence is the minimum).  0 on the empty list. -/
def robustMinPos : List Nat → Nat
  | [] => 0
  | [_] => 0
  | x :: y :: t => if listMin (y :: t) ≤ x then robustMinPos (y :: t) + 1 else 0

/-- Value of the rightmost minimal element (robust-winnowing minimum). -/
def robustMinVal (l : List Nat) : Nat := l.getD (robustMinPos l) 0

-- ---------------------------------------------------------------------------
-- minimiser.hpp : minimiser_view<urng_t>::window_iterator (single stream)
-- ---------------------------------------------------------------------------

/-- State of `minimiser_view::window_iterator` that the emission logic uses:
the cached `minimiser_value` and the deque `window_values`.
(src/include/seqan3/range/views/minimiser.hpp lines 408-422). -/
structure MinState where
  minimiser_value : Nat
  window_values : List Nat
  deriving Repr, DecidableEq

/-- One call of `window_iterator::next_minimiser` (minimiser.hpp lines
473-498) after the upstream advance found a new value `new_value`.
Returns the updated state and whether the call signalled an emission
(`return true` with the window already shifted).  The front test
`minimiser_value == *(std::begin(window_values))` is modelled with
`List.headD 0`; the buffer is nonempty in every reachable state. -/
def next_minimiser (s : MinState) (new_value : Nat) : MinState × Bool :=
  if s.minimiser_value = s.window_values.headD 0 then
    let buf := s.window_values.tail ++ [new_value]
    ({ minimiser_value := listMin buf, window_values := buf }, true)
  else
    let buf := s.window_values.tail ++ [new_value]
    if new_value < s.minimiser_value then
      ({ minimiser_value := new_value, window_values := buf }, true)
    else
      ({ minimiser_value := s.minimiser_value, window_values := buf }, false)

/-- Values emitted by the iterator after the first window: each remaining
upstream value is fed to `next_minimiser`; the minimiser value is part of the
output exactly when `next_minimiser` signals an emission (the iterator's
`operator++` loops `while (!next_minimiser())`, and iteration stops when the
upstream iterator reaches the sentinel). -/
def minimiser_loop (s : MinState) : List Nat → List Nat
  | [] => []
  | v :: rest =>
    let p := next_minimiser s v
    if p.2 then p.1.minimiser_value :: minimiser_loop p.1 rest
    else minimiser_loop p.1 rest

/-- Output of the single-stream `minimiser_view` on hash stream `l` with
window parameter `w`: the `window_iterator` constructor (minimiser.hpp lines
287-294) clamps `w` to the stream length, `window_first` (lines 436-445)
fills the first window (the first `w` values) and caches its minimum, which
is the first output value; the subsequent values come from `next_minimiser`.
Faithful to the source whenever `window_first` stays in bounds, i.e. for
`1 ≤ w` on a nonempty stream (see `uint32_sub_one` for the `w = 0` case). -/
def minimiser_output (l : List Nat) (w : Nat) : List Nat :=
  if l.isEmpty then []
  else
    let w1 := if w > l.length then l.length else w
    let buf := l.take w1
    let m := listMin buf
    m :: minimiser_loop { minimiser_value := m, window_values := buf } (l.drop w1)

-- ---------------------------------------------------------------------------
-- minimiser.hpp : dual-stream variant (window_first_two / next_minimiser_two)
-- ---------------------------------------------------------------------------

/-- Effective value of one position when two ranges are given: the code reads
`new_value = *window_right; if (*window_right2 < new_value) new_value =
*window_right2;` (minimiser.hpp lines 453-455 and 513-515). -/
def two_range_value (v1 v2 : Nat) : Nat := if v2 < v1 then v2 else v1

/-- One call of `window_iterator::next_minimiser_two` (minimiser.hpp lines
503-535) after both upstream iterators advanced to values `v1` and `v2`:
identical to `next_minimiser` on the element-wise smaller value. -/
def next_minimiser_two (s : MinState) (v1 v2 : Nat) : MinState × Bool :=
  let new_value := two_range_value v1 v2
  if s.minimiser_value = s.window_values.headD 0 then
    let buf := s.window_values.tail ++ [new_value]
    ({ minimiser_value := listMin buf, window_values := buf }, true)
  else
    let buf := s.window_values.tail ++ [new_value]
    if new_value < s.minimiser_value then
      ({ minimiser_value := new_value, window_values := buf }, true)
    else
      ({ minimiser_value := s.minimiser_value, window_values := buf }, false)

/-- Emission loop of the dual-stream iterator: both streams advance in
lockstep, end is reached at the first stream's sentinel.  (When the first
stream is longer than the second the C++ code dereferences the second
iterator past its end — undefined behaviour; the model stops instead, so it
is faithful exactly on the equal-length inputs the adaptor admits.) -/
def minimiser_loop_two (s : MinState) : List Nat → List Nat → List Nat
  | v1 :: r1, v2 :: r2 =>
    let p := next_minimiser_two s v1 v2
    if p.2 then p.1.minimiser_value :: minimiser_loop_two p.1 r1 r2
    else minimiser_loop_two p.1 r1 r2
  | _, _ => []

/-- Output of the dual-stream `minimiser_view`: `window_first_two`
(minimiser.hpp lines 448-468) fills the first window with the element-wise
smaller values of the first `w` positions and caches the minimum (the first
output value); the clamp in the constructor (lines 311-318) uses the first
stream's length. -/
def minimiser_output_two (l1 l2 : List Nat) (w : Nat) : List Nat :=
  if l1.isEmpty then []
  else
    let w1 := if w > l1.length then l1.length else w
    let buf := (List.zipWith two_range_value l1 l2).take w1
    let m := listMin buf
    m :: minimiser_loop_two { minimiser_value := m, window_values := buf }
          (l1.drop w1) (l2.drop w1)

-- ---------------------------------------------------------------------------
-- minimiser.hpp : minimiser_fn (adaptor, construction-time validation)
-- ---------------------------------------------------------------------------

/-- Data of a constructed single-stream `minimiser_view` (minimiser.hpp lines
40-54): the underlying range and the window size, exactly what the
constructor on line 75 stores. -/
structure MinimiserView where
  urange : List Nat
  window_values_size : Nat
  deriving Repr, DecidableEq

/-- Data of a constructed dual-stream `minimiser_view`
(constructor on minimiser.hpp lines 97-98). -/
structure MinimiserViewTwo where
  urange : List Nat
  urange2 : List Nat
  window_values_size : Nat
  deriving Repr, DecidableEq

/-- `minimiser_fn::operator()(urange, window_values_size)` (minimiser.hpp
lines 566-579): throws `std::invalid_argument` when `window_values_size == 1`
and otherwise returns the constructed view. -/
def minimiser_fn_one (l : List Nat) (w : Nat) : Except String MinimiserView :=
  if w = 1 then
    Except.error "The chosen window_valzes_size is not valid. Please choose a value greater than 1 or use two ranges."
  else
    Except.ok { urange := l, window_values_size := w }

/-- `minimiser_fn::operator()(urange, window_values_size, urange2)`
(minimiser.hpp lines 597-608): throws `std::invalid_argument` when the two
ranges differ in size and otherwise returns the constructed view. -/
def minimiser_fn_two (l1 : List Nat) (w : Nat) (l2 : List Nat) :
    Except String MinimiserViewTwo :=
  if l1.length ≠ l2.length then
    Except.error "The two ranges do not have the same size. "
  else
    Except.ok { urange := l1, urange2 := l2, window_values_size := w }

/-- True when the `Except` value holds an error (a thrown exception). -/
def isErr {α : Type} : Except String α → Bool
  | Except.error _ => true
  | Except.ok _ => false

/-- The value `window_values_size - 1` computed in `uint32_t` arithmetic:
the bound of the fill loop in `window_first` (minimiser.hpp line 438,
`i < window_values_size - 1` with `uint32_t` operands).  For
`window_values_size = 0` the subtraction wraps to `2 ^ 32 - 1`. -/
def uint32_sub_one (w : Nat) : Nat := (w + 2 ^ 32 - 1) % 2 ^ 32

/-- The clamp performed by the `window_iterator` constructor (minimiser.hpp
lines 290-291): only values larger than the stream length are reduced. -/
def clamp_window (w n : Nat) : Nat := if w > n then n else w

/-- Whether all dereferences of `window_first` on a stream of length `n` stay
in bounds: the fill loop dereferences the upstream iterator at positions
`0 .. uint32_sub_one w` (one read per iteration plus the final
`window_values.push_back(*window_right)` on minimiser.hpp line 443). -/
def window_first_reads_ok (w n : Nat) : Bool := uint32_sub_one w + 1 ≤ n

-- ---------------------------------------------------------------------------
-- syncmer.hpp : syncmer_view<urng1_t, urng2_t>::basic_iterator
-- ---------------------------------------------------------------------------

/-- State of `syncmer_view::basic_iterator` used by the emission logic
(syncmer.hpp lines 334-349): the cached `syncmer_value` (dereferencing the
iterator returns it), the cached smallest s-mer `smer_value` and the deque
`smer_values` of the s-mers of the current window. -/
structure SyncIter where
  syncmer_value : Nat
  smer_value : Nat
  smer_values : List Nat
  deriving Repr, DecidableEq

/-- State after `window_first(window_size)` (syncmer.hpp lines 357-374) on
k-mer stream `K` and s-mer stream `S`: the fill loop pushes the first `w + 1`
s-mers, `smer_value` is the result of `min_element` with `less_equal` (whose
value is the minimum value of the buffer), and `syncmer_value` is set to the
first k-mer iff that value sits at index 0 or index `w` of the buffer;
otherwise it keeps its default initialisation `value_type{}`, i.e. 0. -/
def window_first_state (K S : List Nat) (w : Nat) : SyncIter :=
  let buf := S.take (w + 1)
  let m := listMin buf
  { syncmer_value := if m = buf.headD 0 ∨ m = buf.getD w 0 then K.headD 0 else 0,
    smer_value := m,
    smer_values := buf }

/-- One call of `next_syncmer` (syncmer.hpp lines 382-417) after both
iterators advanced without reaching the sentinel, with `kv` the new k-mer and
`sv` the new s-mer.  If the cached minimum equals the front it is recomputed
over the remaining `w` values before the pop/push; emission happens when the
new s-mer is a strict new minimum (sets `smer_value := sv`) or when the
cached minimum equals the new front. -/
def next_syncmer (s : SyncIter) (kv sv : Nat) : SyncIter × Bool :=
  let popped := s.smer_values.tail
  let m := if s.smer_value = s.smer_values.headD 0 then listMin popped else s.smer_value
  let buf := popped ++ [sv]
  if sv < m then
    ({ syncmer_value := kv, smer_value := sv, smer_values := buf }, true)
  else if m = buf.headD 0 then
    ({ syncmer_value := kv, smer_value := buf.headD 0, smer_values := buf }, true)
  else
    ({ syncmer_value := s.syncmer_value, smer_value := m, smer_values := buf }, false)

/-- Emission loop of the syncmer iterator: `operator++` calls
`next_unique_syncmer`, which loops `while (!next_syncmer())`; each call
advances both streams by one, and iteration ends at the first (k-mer)
stream's sentinel. -/
def syncmer_loop (s : SyncIter) : List Nat → List Nat → List Nat
  | kv :: ks, sv :: ss =>
    let p := next_syncmer s kv sv
    if p.2 then p.1.syncmer_value :: syncmer_loop p.1 ks ss
    else syncmer_loop p.1 ks ss
  | _, _ => []

/-- Output of the `syncmer_view` on k-mer stream `K` and s-mer stream `S`
with window parameter `w`: `begin()` constructs the iterator (running
`window_first`, which consumes `S` up to position `w`), the first dereference
yields the cached `syncmer_value`, and each increment runs the loop.  When
`K` is empty the iterator compares equal to the sentinel at once and the
output is empty (`window_first` still runs; see `syncmer_begin_checked` for
the reads it performs). -/
def syncmer_output (K S : List Nat) (w : Nat) : List Nat :=
  match K with
  | [] => []
  | _ :: ktail =>
    let s0 := window_first_state K S w
    s0.syncmer_value :: syncmer_loop s0 ktail (S.drop (w + 1))

/-- The first `n` values of a stream, `none` when fewer than `n` dereferences
are possible (a read past the end sentinel). -/
def take_checked (S : List Nat) (n : Nat) : Option (List Nat) :=
  if n ≤ S.length then some (S.take n) else none

/-- The `basic_iterator` constructor (syncmer.hpp lines 257-267) with every
upstream dereference checked: it unconditionally runs `window_first`, which
dereferences the s-mer iterator `w + 1` times (positions `0 .. w`), and
dereferences the k-mer iterator once when the endpoint condition holds.
`none` means a dereference past the end of a stream happened. -/
def syncmer_begin_checked (K S : List Nat) (w : Nat) : Option SyncIter :=
  match take_checked S (w + 1) with
  | none => none
  | some buf =>
    let m := listMin buf
    if m = buf.headD 0 ∨ m = buf.getD w 0 then
      match K.head? with
      | none => none
      | some k0 => some { syncmer_value := k0, smer_value := m, smer_values := buf }
    else
      some { syncmer_value := 0, smer_value := m, smer_values := buf }

-- ---------------------------------------------------------------------------
-- weighted_minimiser_hash.hpp : the per-position combiner
-- ---------------------------------------------------------------------------

/-- The transform lambda of `weighted_minimiser_hash_fn::operator()`
(weighted_minimiser_hash.hpp lines 94-101) at one zipped position: when the
membership predicate (`agent.bulk_contains(x)[0] > 0`) holds for the forward
or the reverse hash, the larger of the two is emitted, otherwise the smaller.
The bloom-filter membership agent is abstracted into the predicate
`contains`. -/
def weighted_value (contains : Nat → Bool) (f r : Nat) : Nat :=
  if contains f || contains r then max f r else min f r

/-- The combined stream `both` of weighted_minimiser_hash.hpp line 94:
`zip(forward_strand, reverse_strand) | transform(...)`. -/
def weighted_stream (contains : Nat → Bool) (F R : List Nat) : List Nat :=
  List.zipWith (weighted_value contains) F R

-- ---------------------------------------------------------------------------
-- Spec-side (per-window) description of the syncmer emissions
-- ---------------------------------------------------------------------------

/-- Per-window emission criterion that the syncmer code realises after the
first window (derived below, `syncmer_emission_characterisation`): for the
k-mer whose s-mer window is `win ++ [sv]` (with `win` of length `w`), the
k-mer is emitted iff the new s-mer `sv` is strictly below the minimum of
`win`, or the first value of `win` equals the minimum of `win`. -/
def syncmer_window_emits (win : List Nat) (sv : Nat) : Bool :=
  decide (sv < listMin win) || decide (win.headD 0 = listMin win)

/-- Stateless recomputation of the syncmer emissions: the current window
(minus its newest s-mer) is carried along and every decision is recomputed
from it alone — no cached minimum, no iterator state. -/
def syncmer_windows_loop : List Nat → List Nat → List Nat → List Nat
  | win, kv :: ks, sv :: ss =>
    if syncmer_window_emits win sv
    then kv :: syncmer_windows_loop (win.tail ++ [sv]) ks ss
    else syncmer_windows_loop (win.tail ++ [sv]) ks ss
  | _, _, _ => []

/-- Per-window description of the whole syncmer output: the first output
value is the first k-mer if the minimum value of the first `w + 1` s-mers
sits at index 0 or index `w`, and the default value 0 otherwise; every later
k-mer is judged by `syncmer_window_emits` on its own window. -/
def syncmer_spec_output (K S : List Nat) (w : Nat) : List Nat :=
  match K with
  | [] => []
  | k0 :: ktail =>
    let buf := S.take (w + 1)
    let m := listMin buf
    (if m = buf.headD 0 ∨ m = buf.getD w 0 then k0 else 0) ::
      syncmer_windows_loop buf.tail ktail (S.drop (w + 1))

-- ---------------------------------------------------------------------------
-- Helper lemmas about listMin / robustMinPos
-- ---------------------------------------------------------------------------

lemma listMin_cons (x : Nat) (t : List Nat) (h : t ≠ []) :
    listMin (x :: t) = min x (listMin t) := by
  cases t with
  | nil => exact absurd rfl h
  | cons y ys => rfl

lemma listMin_append (l : List Nat) (v : Nat) (h : l ≠ []) :
    listMin (l ++ [v]) = min (listMin l) v := by
  induction l with
  | nil => exact absurd rfl h
  | cons x xs ih =>
    cases xs with
    | nil => rfl
    | cons y ys =>
      have hne : (y :: ys : List Nat) ≠ [] := by simp
      have h2 : ((y :: ys) ++ [v] : List Nat) ≠ [] := by simp
      rw [List.cons_append, listMin_cons x ((y :: ys) ++ [v]) h2, ih hne,
          listMin_cons x (y :: ys) hne, min_assoc]

lemma listMin_tail_eq (x : Nat) (t : List Nat) (h : t ≠ [])
    (hne : listMin (x :: t) ≠ x) : listMin t = listMin (x :: t) := by
  rw [listMin_cons x t h] at hne ⊢
  rcases Nat.le_total x (listMin t) with hle | hle
  · exact absurd (min_eq_left hle) hne
  · exact (min_eq_right hle).symm

lemma robustMinVal_eq_listMin (l : List Nat) (h : l ≠ []) :
    robustMinVal l = listMin l := by
  induction l with
  | nil => exact absurd rfl h
  | cons x t ih =>
    cases t with
    | nil => rfl
    | cons y ys =>
      have hne : (y :: ys : List Nat) ≠ [] := by simp
      have hpos : robustMinPos (x :: y :: ys) =
          if listMin (y :: ys) ≤ x then robustMinPos (y :: ys) + 1 else 0 := rfl
      by_cases hc : listMin (y :: ys) ≤ x
      · have h1 : robustMinVal (x :: y :: ys) = robustMinVal (y :: ys) := by
          unfold robustMinVal
          rw [hpos, if_pos hc]
          rfl
        rw [h1, ih hne, listMin_cons x (y :: ys) hne, min_eq_right hc]
      · have h1 : robustMinVal (x :: y :: ys) = x := by
          unfold robustMinVal
          rw [hpos, if_neg hc]
          rfl
        rw [h1, listMin_cons x (y :: ys) hne,
            min_eq_left (Nat.le_of_lt (Nat.lt_of_not_le hc))]

-- ---------------------------------------------------------------------------
-- The syncmer step: shape, cached minimum, and emission flag
-- ---------------------------------------------------------------------------

lemma next_syncmer_step (sy smv x z : Nat) (zs : List Nat) (kv sv : Nat)
    (hmin : smv = listMin (x :: z :: zs)) :
    (next_syncmer ⟨sy, smv, x :: z :: zs⟩ kv sv).1.smer_values = (z :: zs) ++ [sv] ∧
    (next_syncmer ⟨sy, smv, x :: z :: zs⟩ kv sv).1.smer_value =
      listMin ((z :: zs) ++ [sv]) ∧
    (next_syncmer ⟨sy, smv, x :: z :: zs⟩ kv sv).2 = syncmer_window_emits (z :: zs) sv ∧
    ((next_syncmer ⟨sy, smv, x :: z :: zs⟩ kv sv).2 = true →
      (next_syncmer ⟨sy, smv, x :: z :: zs⟩ kv sv).1.syncmer_value = kv) := by
  have hne : (z :: zs : List Nat) ≠ [] := by simp
  have hm : (if smv = x then listMin (z :: zs) else smv) = listMin (z :: zs) := by
    by_cases hc : smv = x
    · rw [if_pos hc]
    · rw [if_neg hc]
      rw [hmin]
      exact (listMin_tail_eq x (z :: zs) hne (by rw [hmin] at hc; exact hc)).symm
  have hbufmin : listMin ((z :: zs) ++ [sv]) = min (listMin (z :: zs)) sv :=
    listMin_append (z :: zs) sv hne
  have h1 : next_syncmer ⟨sy, smv, x :: z :: zs⟩ kv sv =
      (if sv < listMin (z :: zs) then
        ({ syncmer_value := kv, smer_value := sv, smer_values := (z :: zs) ++ [sv] }, true)
       else if listMin (z :: zs) = z then
        ({ syncmer_value := kv, smer_value := z, smer_values := (z :: zs) ++ [sv] }, true)
       else
        ({ syncmer_value := sy, smer_value := listMin (z :: zs),
           smer_values := (z :: zs) ++ [sv] }, false)) := by
    simp only [next_syncmer, List.headD_cons, List.tail_cons, List.cons_append]
    rw [hm]
  rw [h1]
  by_cases c1 : sv < listMin (z :: zs)
  · rw [if_pos c1]
    refine ⟨rfl, ?_, ?_, fun _ => rfl⟩
    · rw [hbufmin, min_eq_right (Nat.le_of_lt c1)]
    · simp [syncmer_window_emits, c1]
  · rw [if_neg c1]
    by_cases c2 : listMin (z :: zs) = z
    · rw [if_pos c2]
      refine ⟨rfl, ?_, ?_, fun _ => rfl⟩
      · rw [hbufmin, min_eq_left (Nat.le_of_not_lt c1), c2]
      · symm
        unfold syncmer_window_emits
        rw [List.headD_cons]
        simp only [Bool.or_eq_true, decide_eq_true_eq]
        exact Or.inr c2.symm
    · rw [if_neg c2]
      refine ⟨rfl, ?_, ?_, fun h => by exact absurd h (by simp)⟩
      · rw [hbufmin, min_eq_left (Nat.le_of_not_lt c1)]
      · symm
        unfold syncmer_window_emits
        rw [List.headD_cons, decide_eq_false c1, decide_eq_false (fun h => c2 h.symm)]
        rfl

lemma syncmer_loop_eq_windows (ks : List Nat) :
    ∀ (ss : List Nat) (s : SyncIter), 2 ≤ s.smer_values.length →
      s.smer_value = listMin s.smer_values →
      syncmer_loop s ks ss = syncmer_windows_loop s.smer_values.tail ks ss := by
  induction ks with
  | nil =>
    intro ss s _ _
    cases ss <;> rfl
  | cons kv ks ih =>
    intro ss s hlen hmin
    cases ss with
    | nil => rfl
    | cons sv ss =>
      obtain ⟨sy, smv, b⟩ := s
      match b, hlen with
      | x :: z :: zs, _ =>
        have hmin2 : smv = listMin (x :: z :: zs) := hmin
        have step := next_syncmer_step sy smv x z zs kv sv hmin2
        have hlen2 : 2 ≤ (next_syncmer ⟨sy, smv, x :: z :: zs⟩ kv sv).1.smer_values.length := by
          rw [step.1]
          simp
        have htail : (next_syncmer ⟨sy, smv, x :: z :: zs⟩ kv sv).1.smer_values.tail =
            zs ++ [sv] := by
          rw [step.1]
          rfl
        have hmin3 : (next_syncmer ⟨sy, smv, x :: z :: zs⟩ kv sv).1.smer_value =
            listMin (next_syncmer ⟨sy, smv, x :: z :: zs⟩ kv sv).1.smer_values := by
          rw [step.1]
          exact step.2.1
        have hrec := ih ss (next_syncmer ⟨sy, smv, x :: z :: zs⟩ kv sv).1 hlen2 hmin3
        rw [htail] at hrec
        show (if (next_syncmer ⟨sy, smv, x :: z :: zs⟩ kv sv).2 then
                (next_syncmer ⟨sy, smv, x :: z :: zs⟩ kv sv).1.syncmer_value ::
                  syncmer_loop (next_syncmer ⟨sy, smv, x :: z :: zs⟩ kv sv).1 ks ss
              else syncmer_loop (next_syncmer ⟨sy, smv, x :: z :: zs⟩ kv sv).1 ks ss) =
             syncmer_windows_loop (x :: z :: zs).tail (kv :: ks) (sv :: ss)
        rw [step.2.2.1]
        by_cases he : syncmer_window_emits (z :: zs) sv
        · rw [if_pos he]
          have hval := step.2.2.2 (by rw [step.2.2.1]; exact he)
          rw [hval, hrec]
          show kv :: syncmer_windows_loop (zs ++ [sv]) ks ss =
              syncmer_windows_loop (z :: zs) (kv :: ks) (sv :: ss)
          rw [syncmer_windows_loop]
          rw [if_pos he]
          rfl
        · rw [if_neg he]
          rw [hrec]
          show syncmer_windows_loop (zs ++ [sv]) ks ss =
              syncmer_windows_loop (z :: zs) (kv :: ks) (sv :: ss)
          rw [syncmer_windows_loop]
          rw [if_neg he]
          rfl

-- ---------------------------------------------------------------------------
-- Claim theorems
-- ---------------------------------------------------------------------------

/-- Claim C2: the single-stream minimiser emits on a window shift exactly
when (a) the value leaving the window equals the cached minimum — in which
case the minimum is recomputed over the new window and emitted even if it
equals the previous minimum — or (b) the newly arrived value is strictly
smaller than the cached minimum; otherwise the shift emits nothing.  In
particular seventeen equal values 0 with w = 4 produce fourteen zeros. -/
theorem minimiser_emission_rule :
    (∀ (s : MinState) (v : Nat), (next_minimiser s v).2 = true ↔
        (s.minimiser_value = s.window_values.headD 0 ∨ v < s.minimiser_value)) ∧
    (∀ (s : MinState) (v : Nat), s.minimiser_value = s.window_values.headD 0 →
        (next_minimiser s v).1.minimiser_value = listMin (s.window_values.tail ++ [v]) ∧
        (next_minimiser s v).2 = true) ∧
    minimiser_output (List.replicate 17 0) 4 = List.replicate 14 0 := by
  refine ⟨?_, ?_, by decide⟩
  · intro s v
    unfold next_minimiser
    by_cases h1 : s.minimiser_value = s.window_values.headD 0
    · rw [if_pos h1]
      simp [h1]
    · rw [if_neg h1]
      by_cases h2 : v < s.minimiser_value
      · rw [if_pos h2]
        simp [h2]
      · rw [if_neg h2]
        simp only [List.headD_eq_head?_getD] at h1
        simp [h1, h2]
  · intro s v h
    unfold next_minimiser
    rw [if_pos h]
    exact ⟨rfl, rfl⟩

/-- Witness for C2: a concrete shift whose leaving value equals the cached
minimum recomputes and emits. -/
theorem minimiser_emission_rule_witness :
    (next_minimiser ⟨3, [3, 7]⟩ 9).1.minimiser_value =
      listMin (([3, 7] : List Nat).tail ++ [9]) ∧
    (next_minimiser ⟨3, [3, 7]⟩ 9).2 = true :=
  minimiser_emission_rule.2.1 ⟨3, [3, 7]⟩ 9 rfl

/-- Claim C3 (counterexample): on the documented input pair — sizes 9 and 8 —
the adaptor throws (so nothing is produced), and the directly constructed
dual-stream view does not produce [2, 4, 1] either. -/
theorem minimiser_dual_doc_example_counterexample :
    isErr (minimiser_fn_two [28, 100, 9, 23, 4, 1, 72, 37, 8] 4
        [30, 2, 11, 101, 199, 73, 34, 900]) = true ∧
    minimiser_output_two [28, 100, 9, 23, 4, 1, 72, 37, 8]
        [30, 2, 11, 101, 199, 73, 34, 900] 4 ≠ [2, 4, 1] :=
  ⟨rfl, by decide⟩

/-- Claim C3 (amended): the adaptor rejects the two documented streams with
the length-mismatch error because their sizes are 9 and 8; the dual-stream
minimiser itself — on the equal-length truncation of the first stream to 8
values, where its behaviour is defined — produces [2, 1], and the model of
the direct view on the full inputs (which stops at the shorter stream where
the C++ code would read past its end) also produces [2, 1]; in no reading is
the output [2, 4, 1]. -/
theorem minimiser_dual_doc_example_amended :
    minimiser_fn_two [28, 100, 9, 23, 4, 1, 72, 37, 8] 4
        [30, 2, 11, 101, 199, 73, 34, 900] =
      Except.error "The two ranges do not have the same size. " ∧
    minimiser_output_two [28, 100, 9, 23, 4, 1, 72, 37]
        [30, 2, 11, 101, 199, 73, 34, 900] 4 = [2, 1] ∧
    minimiser_output_two [28, 100, 9, 23, 4, 1, 72, 37, 8]
        [30, 2, 11, 101, 199, 73, 34, 900] 4 = [2, 1] :=
  ⟨rfl, by decide, by decide⟩

/-- Claim C4: on an empty input the syncmer view's output is empty, but the
iterator constructor (which runs unconditionally) dereferences the s-mer
iterator `w + 1` times, past the end of the empty stream — `none` below
records that a read past the end sentinel happened.  The claim (no reads
past the sentinel) states the contract the specification adopts; the code
violates it. -/
theorem syncmer_empty_input_reads_past_end :
    ∀ w : Nat, syncmer_begin_checked [] [] w = none ∧ syncmer_output [] [] w = [] := by
  intro w
  constructor
  · unfold syncmer_begin_checked take_checked
    have h : ¬(w + 1 ≤ ([] : List Nat).length) := by simp
    rw [if_neg h]
  · rfl

/-- Claim C5: the dual-stream adaptor fails if and only if the two streams
have unequal sizes, and in the failing case it returns only the error — no
partially constructed view. -/
theorem minimiser_dual_length_check :
    (∀ (l1 : List Nat) (w : Nat) (l2 : List Nat),
        isErr (minimiser_fn_two l1 w l2) = true ↔ l1.length ≠ l2.length) ∧
    (∀ (l1 : List Nat) (w : Nat) (l2 : List Nat), l1.length ≠ l2.length →
        minimiser_fn_two l1 w l2 =
          Except.error "The two ranges do not have the same size. ") := by
  constructor
  · intro l1 w l2
    unfold minimiser_fn_two isErr
    by_cases h : l1.length = l2.length
    · simp [h]
    · simp [h]
  · intro l1 w l2 h
    unfold minimiser_fn_two
    rw [if_pos h]

/-- Witness for C5: streams of sizes 1 and 0 are rejected with the
length-mismatch error. -/
theorem minimiser_dual_length_check_witness :
    minimiser_fn_two [5] 4 [] =
      Except.error "The two ranges do not have the same size. " :=
  minimiser_dual_length_check.2 [5] 4 [] (by decide)

/-- Claim C6: the single-stream minimiser adaptor rejects window size 1 at
construction with the invalid-argument error, for every input stream. -/
theorem minimiser_window_size_one_rejected :
    ∀ l : List Nat, minimiser_fn_one l 1 =
      Except.error "The chosen window_valzes_size is not valid. Please choose a value greater than 1 or use two ranges." := by
  intro l
  rfl

/-- Helper: `getD` of a `zipWith` at an in-bounds position. -/
lemma zipWith_getD (f : Nat → Nat → Nat) :
    ∀ (F R : List Nat) (i : Nat), i < F.length → i < R.length →
      (List.zipWith f F R).getD i 0 = f (F.getD i 0) (R.getD i 0) := by
  intro F
  induction F with
  | nil =>
    intro R i h1 _
    simp at h1
  | cons a as ih =>
    intro R i h1 h2
    cases R with
    | nil => simp at h2
    | cons b bs =>
      cases i with
      | zero => rfl
      | succ j =>
        exact ih bs j (by simpa using h1) (by simpa using h2)

/-- Claim C7: at every position of two equal-length hash streams the weighted
combiner emits the maximum of the two hashes when the membership predicate
holds for either of them, and the minimum otherwise. -/
theorem weighted_combiner_minmax (contains : Nat → Bool) (F R : List Nat) (i : Nat)
    (hlen : F.length = R.length) (hi : i < F.length) :
    (weighted_stream contains F R).getD i 0 =
      if contains (F.getD i 0) = true ∨ contains (R.getD i 0) = true
      then max (F.getD i 0) (R.getD i 0)
      else min (F.getD i 0) (R.getD i 0) := by
  have h2 : i < R.length := hlen ▸ hi
  unfold weighted_stream
  rw [zipWith_getD (weighted_value contains) F R i hi h2]
  unfold weighted_value
  by_cases hf : contains (F.getD i 0) = true
  · simp [hf]
  · by_cases hr : contains (R.getD i 0) = true
    · simp [hf, hr]
    · simp [hf, hr]

/-- Witness for C7: with membership of exactly the value 4, position 0 of
the streams [4, 10] and [9, 3] is combined to the maximum. -/
theorem weighted_combiner_minmax_witness :
    (weighted_stream (fun v => v == 4) [4, 10] [9, 3]).getD 0 0 =
      if (fun v => v == 4) (([4, 10] : List Nat).getD 0 0) = true ∨
         (fun v => v == 4) (([9, 3] : List Nat).getD 0 0) = true
      then max (([4, 10] : List Nat).getD 0 0) (([9, 3] : List Nat).getD 0 0)
      else min (([4, 10] : List Nat).getD 0 0) (([9, 3] : List Nat).getD 0 0) :=
  weighted_combiner_minmax (fun v => v == 4) [4, 10] [9, 3] 0 (by decide) (by decide)

/-- Claim C10: the single-stream adaptor throws exactly for window size 1
(window size 0 is accepted), the constructor clamp keeps 0 unchanged, and
for window size 0 the fill-loop bound `window_values_size - 1` wraps in
unsigned 32-bit arithmetic, so the first-window loop dereferences the
underlying range past its end on every nonempty input. -/
theorem minimiser_window_size_zero_wraps :
    (∀ (l : List Nat) (w : Nat), isErr (minimiser_fn_one l w) = true ↔ w = 1) ∧
    uint32_sub_one 0 = 4294967295 ∧
    (∀ n : Nat, 0 < n → n < 4294967296 →
        clamp_window 0 n = 0 ∧ window_first_reads_ok 0 n = false) := by
  refine ⟨?_, by decide, ?_⟩
  · intro l w
    unfold minimiser_fn_one isErr
    by_cases h : w = 1
    · simp [h]
    · simp [h]
  · intro n hpos hlt
    constructor
    · unfold clamp_window
      simp
    · unfold window_first_reads_ok
      have h0 : uint32_sub_one 0 = 4294967295 := by decide
      rw [h0]
      exact decide_eq_false (by omega)

/-- Witness for C10: a stream of length 5 with window size 0 passes the
adaptor check, is not clamped, and the wrapped fill loop reads out of
bounds. -/
theorem minimiser_window_size_zero_wraps_witness :
    clamp_window 0 5 = 0 ∧ window_first_reads_ok 0 5 = false :=
  minimiser_window_size_zero_wraps.2.2 5 (by decide) (by decide)

/-- Helper: the element-wise combination of two stream values is symmetric
in the two streams (its value is the minimum of the two). -/
lemma two_range_value_comm (a b : Nat) : two_range_value a b = two_range_value b a := by
  unfold two_range_value
  rcases Nat.lt_trichotomy a b with h | h | h
  · rw [if_neg (by omega), if_pos h]
  · subst h
    rfl
  · rw [if_pos h, if_neg (by omega)]

/-- Helper: one dual-stream step is symmetric in the two new values. -/
lemma next_minimiser_two_comm (s : MinState) (v1 v2 : Nat) :
    next_minimiser_two s v1 v2 = next_minimiser_two s v2 v1 := by
  unfold next_minimiser_two
  rw [two_range_value_comm]

/-- Helper: the dual-stream emission loop is symmetric in the two streams. -/
lemma minimiser_loop_two_comm :
    ∀ (l1 l2 : List Nat) (s : MinState),
      minimiser_loop_two s l1 l2 = minimiser_loop_two s l2 l1 := by
  intro l1
  induction l1 with
  | nil =>
    intro l2 s
    cases l2 <;> rfl
  | cons v1 r1 ih =>
    intro l2 s
    cases l2 with
    | nil => rfl
    | cons v2 r2 =>
      simp only [minimiser_loop_two]
      rw [next_minimiser_two_comm s v1 v2]
      simp only [ih r2]

/-- Claim C9: for equal-length hash streams the dual-stream minimiser output
is unchanged when the two streams are swapped. -/
theorem minimiser_dual_commutative (l1 l2 : List Nat) (w : Nat)
    (hlen : l1.length = l2.length) :
    minimiser_output_two l1 l2 w = minimiser_output_two l2 l1 w := by
  cases l1 with
  | nil =>
    cases l2 with
    | nil => rfl
    | cons b bs => simp at hlen
  | cons a as =>
    cases l2 with
    | nil => simp at hlen
    | cons b bs =>
      have hzip : List.zipWith two_range_value (a :: as) (b :: bs) =
          List.zipWith two_range_value (b :: bs) (a :: as) :=
        List.zipWith_comm_of_comm two_range_value two_range_value_comm (a :: as) (b :: bs)
      unfold minimiser_output_two
      rw [hzip, hlen]
      simp only [List.isEmpty_cons, Bool.false_eq_true, if_false]
      rw [minimiser_loop_two_comm]

/-- Witness for C9: swapping two concrete equal-length streams leaves the
dual minimiser output unchanged. -/
theorem minimiser_dual_commutative_witness :
    minimiser_output_two [5, 2, 8] [7, 1, 6] 2 = minimiser_output_two [7, 1, 6] [5, 2, 8] 2 :=
  minimiser_dual_commutative [5, 2, 8] [7, 1, 6] 2 (by decide)

/-- Claim C1 (counterexample): on the k-mer stream [100, 200] and s-mer
stream [0, 0, 5, 7] with w = 2, the view emits the k-mer 100 (the head of
the output) although the robust-winnowing minimum of its s-mer window
(0, 0, 5) — rightmost on ties — sits at local index 1, which is neither 0
nor w. -/
theorem syncmer_robust_winnowing_counterexample :
    syncmer_output [100, 200] [0, 0, 5, 7] 2 = [100, 200] ∧
    robustMinPos [0, 0, 5] ≠ 0 ∧ robustMinPos [0, 0, 5] ≠ 2 := by decide

/-- Claim C1 (amended): the syncmer view emits according to the minimum
value, not the rightmost-tie position: the first output value is the first
k-mer when the minimum value of the first w+1 s-mers occurs at local index 0
or w (and the default value 0 otherwise), and each later k-mer K_i is
emitted iff S_i equals the minimum of (S_i, ..., S_{i+w-1}) or S_{i+w} is
strictly smaller than that minimum — the per-window recomputation
`syncmer_spec_output`. -/
theorem syncmer_emission_characterisation (K S : List Nat) (w : Nat)
    (hw : 1 ≤ w) (hS : w + 1 ≤ S.length) :
    syncmer_output K S w = syncmer_spec_output K S w := by
  cases K with
  | nil => rfl
  | cons k0 ktail =>
    have hbuf_len : (S.take (w + 1)).length = w + 1 := by
      rw [List.length_take]
      omega
    have h2 : 2 ≤ (window_first_state (k0 :: ktail) S w).smer_values.length := by
      show 2 ≤ (S.take (w + 1)).length
      rw [hbuf_len]
      omega
    have hminv : (window_first_state (k0 :: ktail) S w).smer_value =
        listMin (window_first_state (k0 :: ktail) S w).smer_values := rfl
    have hloop := syncmer_loop_eq_windows ktail (S.drop (w + 1))
      (window_first_state (k0 :: ktail) S w) h2 hminv
    show (window_first_state (k0 :: ktail) S w).syncmer_value ::
        syncmer_loop (window_first_state (k0 :: ktail) S w) ktail (S.drop (w + 1)) = _
    rw [hloop]
    rfl

/-- Witness for C1 (amended): the characterisation evaluated on the k-mer /
s-mer hashes of ACGGCGACGTTTAG with k = 5, s = 3, w = 2. -/
theorem syncmer_emission_characterisation_witness :
    syncmer_output [105, 422, 664, 609, 390, 539, 111, 447, 764, 1010]
        [6, 26, 41, 38, 24, 33, 6, 27, 47, 63, 60, 50] 2 =
      syncmer_spec_output [105, 422, 664, 609, 390, 539, 111, 447, 764, 1010]
        [6, 26, 41, 38, 24, 33, 6, 27, 47, 63, 60, 50] 2 :=
  syncmer_emission_characterisation _ _ 2 (by decide) (by decide)

/-- Claim C8: the s-mer buffer holds exactly w+1 elements after the first
window and its size is preserved by every completed step; the cached
smallest s-mer always equals the buffer's minimum under less-or-equal
comparison (rightmost occurrence on ties, `robustMinVal`). -/
theorem syncmer_buffer_invariant :
    (∀ (K S : List Nat) (w : Nat), w + 1 ≤ S.length →
        (window_first_state K S w).smer_values.length = w + 1 ∧
        (window_first_state K S w).smer_value =
          robustMinVal (window_first_state K S w).smer_values) ∧
    (∀ (s : SyncIter) (kv sv : Nat), 2 ≤ s.smer_values.length →
        s.smer_value = listMin s.smer_values →
        (next_syncmer s kv sv).1.smer_values.length = s.smer_values.length ∧
        (next_syncmer s kv sv).1.smer_value =
          robustMinVal ((next_syncmer s kv sv).1.smer_values)) := by
  constructor
  · intro K S w hS
    have hlen : (S.take (w + 1)).length = w + 1 := by
      rw [List.length_take]
      omega
    refine ⟨hlen, ?_⟩
    have hne : (S.take (w + 1)) ≠ [] := by
      intro h
      rw [h] at hlen
      simp at hlen
    show listMin (S.take (w + 1)) = robustMinVal (S.take (w + 1))
    exact (robustMinVal_eq_listMin _ hne).symm
  · intro s kv sv hlen hmin
    obtain ⟨sy, smv, b⟩ := s
    match b, hlen with
    | x :: z :: zs, _ =>
      have hmin2 : smv = listMin (x :: z :: zs) := hmin
      have step := next_syncmer_step sy smv x z zs kv sv hmin2
      constructor
      · rw [step.1]
        simp
      · rw [step.2.1, step.1]
        have hne2 : ((z :: zs) ++ [sv] : List Nat) ≠ [] := by simp
        exact (robustMinVal_eq_listMin _ hne2).symm

/-- Witness for C8: the invariant evaluated at a concrete first window and a
concrete step. -/
theorem syncmer_buffer_invariant_witness :
    ((window_first_state [9] [4, 1, 6] 1).smer_values.length = 1 + 1 ∧
      (window_first_state [9] [4, 1, 6] 1).smer_value =
        robustMinVal (window_first_state [9] [4, 1, 6] 1).smer_values) ∧
    ((next_syncmer ⟨7, 1, [1, 2]⟩ 9 0).1.smer_values.length =
        (([1, 2] : List Nat)).length ∧
      (next_syncmer ⟨7, 1, [1, 2]⟩ 9 0).1.smer_value =
        robustMinVal ((next_syncmer ⟨7, 1, [1, 2]⟩ 9 0).1.smer_values)) :=
  ⟨syncmer_buffer_invariant.1 [9] [4, 1, 6] 1 (by decide),
   syncmer_buffer_invariant.2 ⟨7, 1, [1, 2]⟩ 9 0 (by decide) (by decide)⟩

end Seqan3
